import Mathlib

/-!
Verification development for the seeing-helper repository.

The repository's core logic consists of three pieces, all embedded here:
* the voice-transcript parser of `parseAndAddSchedule` (src/src/pages/Index.tsx),
  which extracts a time of day, a reminder lead, and a title from a transcript
  by trying JavaScript regular expressions in order;
* the reminder polling logic of `checkSchedules` (src/src/pages/Index.tsx),
  which compares each schedule item's time against the current instant and
  fires at most two one-shot notices per item;
* the turn-by-turn announcer `checkAndAnnounceDirection` together with the
  haversine distance `getDistanceBetweenPoints` (src/src/pages/Navigation.tsx).

JavaScript regular-expression matching is modelled directly: each pattern of
the source is translated to a dedicated matcher over the character list of the
transcript, with JavaScript's leftmost-match rule, ordered alternation, greedy
quantifiers and the exact backtracking they need.
-/

set_option maxRecDepth 4096

namespace SeeingHelper

/-! ## JavaScript string primitives -/

/-- Whitespace characters recognised by the regex class in the source patterns
(ASCII subset, which covers every character the app's transcripts contain). -/
def jsIsSpace (c : Char) : Bool :=
  c = ' ' || c = '\t' || c = '\n' || c = '\r' || c = '\x0b' || c = '\x0c'

/-- JavaScript `String.prototype.toLowerCase` (ASCII letters). -/
def strToLower (s : String) : String := ⟨s.data.map Char.toLower⟩

/-- Decimal value of a digit list. -/
def digitsToNat (l : List Char) : ℕ :=
  l.foldl (fun acc c => 10 * acc + (c.toNat - '0'.toNat)) 0

/-- JavaScript `parseInt` on the capture-group strings the source feeds it:
a leading run of decimal digits after optional whitespace; `none` models `NaN`
(for example `parseInt` applied to a captured `am`/`pm` suffix). The groups
produced by the source's patterns are never signed. -/
def jsParseInt (s : String) : Option ℕ :=
  let l := (s.data.dropWhile jsIsSpace).takeWhile Char.isDigit
  if l.isEmpty then none else some (digitsToNat l)

/-- JavaScript `Number` coercion as used on the `HH`/`MM` pieces of a stored
time string: a pure digit string evaluates to its decimal value, the empty
string to 0; the claims never exercise the `NaN` case, modelled as 0. -/
def jsNumber (s : String) : ℕ :=
  if s.data.all Char.isDigit then digitsToNat s.data else 0

/-- JavaScript `String.prototype.trim`. -/
def jsTrim (s : String) : String :=
  ⟨((s.data.dropWhile jsIsSpace).reverse.dropWhile jsIsSpace).reverse⟩

/-- `title.charAt(0).toUpperCase() + title.slice(1)` from the source. -/
def jsCapitalize (s : String) : String :=
  match s.data with
  | [] => ""
  | c :: rest => ⟨c.toUpper :: rest⟩

/-- `String(n).padStart(2, '0')` from the source. -/
def pad2 (n : ℕ) : String :=
  let s := toString n
  if s.length < 2 then "0" ++ s else s

/-! ## Regex matchers for the time patterns

The three time patterns of `parseAndAddSchedule` (Index.tsx lines 61-65) are
matched at a position; `scanFirst` then realises JavaScript's leftmost-match
search over the whole transcript. -/

/-- Try a matcher at every position, leftmost position first, as
`String.prototype.match` does for an unanchored pattern. -/
def scanFirst (f : List Char → Option α) : List Char → Option α
  | [] => f []
  | c :: rest =>
    match f (c :: rest) with
    | some a => some a
    | none => scanFirst f rest

/-- Case-insensitive `(am|pm)` capture: returns the captured substring (in its
original case, as a JavaScript group would) and the rest. -/
def matchAmPm : List Char → Option (String × List Char)
  | x :: y :: rest =>
    if (x.toLower = 'a' || x.toLower = 'p') && y.toLower = 'm' then
      some (⟨[x, y]⟩, rest)
    else none
  | _ => none

/-- Greedy `(\d{1,2})` followed by a continuation, with regex backtracking:
two digits are preferred, and one digit is retried when the continuation
fails after two. -/
def matchHH (k : List Char → Option α) : List Char → Option (String × α)
  | c1 :: c2 :: rest =>
    if c1.isDigit && c2.isDigit then
      match k rest with
      | some a => some (⟨[c1, c2]⟩, a)
      | none => (k (c2 :: rest)).map (fun a => (⟨[c1]⟩, a))
    else if c1.isDigit then (k (c2 :: rest)).map (fun a => (⟨[c1]⟩, a))
    else none
  | [c1] => if c1.isDigit then (k []).map (fun a => (⟨[c1]⟩, a)) else none
  | [] => none

/-- Continuation of pattern 1 after the hour digits:
`:(\d{2})\s*(am|pm)?`. The greedy `\s*` consumes trailing whitespace even
when the optional suffix is absent, exactly as the regex does. -/
def p1Rest : List Char → Option (String × Option String × List Char)
  | ':' :: a :: b :: rest =>
    if a.isDigit && b.isDigit then
      let rest2 := rest.dropWhile jsIsSpace
      match matchAmPm rest2 with
      | some (g3, rest3) => some (⟨[a, b]⟩, some g3, rest3)
      | none => some (⟨[a, b]⟩, none, rest2)
    else none
  | _ => none

/-- Pattern 1 anchored at a position: `(\d{1,2}):(\d{2})\s*(am|pm)?`. -/
def p1At (l : List Char) : Option (String × String × Option String × List Char) :=
  (matchHH p1Rest l).map fun m => (m.1, m.2.1, m.2.2.1, m.2.2.2)

/-- Continuation of pattern 2 after the hour digits: `\s*(am|pm)`. -/
def p2Rest (l : List Char) : Option (String × List Char) :=
  matchAmPm (l.dropWhile jsIsSpace)

/-- Pattern 2 anchored at a position: `(\d{1,2})\s*(am|pm)`. Note the suffix
is capture group 2 of this pattern. -/
def p2At (l : List Char) : Option (String × String × List Char) :=
  (matchHH p2Rest l).map fun m => (m.1, m.2.1, m.2.2)

/-- Shared core `(\d{1,2})(?::(\d{2}))?\s*(am|pm)?` of pattern 3 and of the
time alternative inside the title-stripping pattern. Everything after the
digits is optional, so the greedy digit take needs no backtracking here. -/
def timeCoreAt (l : List Char) : Option (String × Option String × Option String × List Char) :=
  match matchHH (fun r => some r) l with
  | some (g1, rest2) =>
    let p : Option String × List Char :=
      match rest2 with
      | ':' :: a :: b :: r => if a.isDigit && b.isDigit then (some ⟨[a, b]⟩, r) else (none, rest2)
      | _ => (none, rest2)
    let rest4 := p.2.dropWhile jsIsSpace
    match matchAmPm rest4 with
    | some (g3, rest5) => some (g1, p.1, some g3, rest5)
    | none => some (g1, p.1, none, rest4)
  | none => none

/-- Pattern 3 anchored at a position: `at\s+(\d{1,2})(?::(\d{2}))?\s*(am|pm)?`. -/
def p3At : List Char → Option (String × Option String × Option String × List Char)
  | a :: t :: c :: rest =>
    if a.toLower = 'a' && t.toLower = 't' && jsIsSpace c then
      timeCoreAt (rest.dropWhile jsIsSpace)
    else none
  | _ => none

/-- A successful time-pattern match, holding the contents of capture groups
1, 2 and 3 exactly as the source reads them (`match[1]`, `match[2]`,
`match[3]`); an unmatched group is `none` (JavaScript `undefined`). -/
structure TimeMatch where
  g1 : String
  g2 : Option String
  g3 : Option String
deriving Repr, DecidableEq

/-- First match of pattern 1 in the transcript. Its minute digits populate
group 2 and its suffix group 3. -/
def findTime1 (t : List Char) : Option TimeMatch :=
  (scanFirst p1At t).map fun m => ⟨m.1, some m.2.1, m.2.2.1⟩

/-- First match of pattern 2 in the transcript. Its am/pm suffix populates
group 2, and group 3 is undefined. -/
def findTime2 (t : List Char) : Option TimeMatch :=
  (scanFirst p2At t).map fun m => ⟨m.1, some m.2.1, none⟩

/-- First match of pattern 3 in the transcript. -/
def findTime3 (t : List Char) : Option TimeMatch :=
  (scanFirst p3At t).map fun m => ⟨m.1, m.2.1, m.2.2.1⟩

/-- The extracted time, plus the `timeFound` flag of the source. -/
structure TimeExtract where
  hours : ℕ
  minutes : ℕ
  timeFound : Bool
deriving Repr, DecidableEq

/-- The 24-hour normalization applied to the hour once a period suffix string
has been read from capture group 3 (Index.tsx lines 76-79). -/
def normalizeHours (period : Option String) (hours : ℕ) : ℕ :=
  let h1 := if period = some "pm" ∧ hours < 12 then hours + 12 else hours
  if period = some "am" ∧ h1 = 12 then 0 else h1

/-- Interpretation of a time-pattern match (Index.tsx lines 74-79):
`hours = parseInt(match[1])`;
`minutes = match[2] && !isNaN(parseInt(match[2])) ? parseInt(match[2]) : 0`;
`period = match[3]?.toLowerCase()`; then the normalization. -/
def interpretMatch (m : TimeMatch) : TimeExtract :=
  let hours := (jsParseInt m.g1).getD 0
  let minutes :=
    match m.g2 with
    | some s => if s.isEmpty then 0 else (jsParseInt s).getD 0
    | none => 0
  let period := m.g3.map strToLower
  ⟨normalizeHours period hours, minutes, true⟩

/-- Time extraction of `parseAndAddSchedule`: try the three patterns in order,
first match wins; no match leaves the defaults hour 9, minute 0. -/
def extractTime (transcript : String) : TimeExtract :=
  match findTime1 transcript.data with
  | some m => interpretMatch m
  | none =>
    match findTime2 transcript.data with
    | some m => interpretMatch m
    | none =>
      match findTime3 transcript.data with
      | some m => interpretMatch m
      | none => ⟨9, 0, false⟩

/-! ## Regex matchers for the reminder-lead patterns -/

/-- Case-insensitive literal word match; the pattern word is given in
lowercase. Returns the rest of the input. -/
def litCI : List Char → List Char → Option (List Char)
  | [], l => some l
  | c :: w, x :: l => if x.toLower = c then litCI w l else none
  | _ :: _, [] => none

/-- Greedy `(\d+)`. The source patterns following this group never match a
digit, so its backtracking is vacuous. -/
def matchDigits1Plus (l : List Char) : Option (String × List Char) :=
  let ds := l.takeWhile Char.isDigit
  if ds.isEmpty then none else some (⟨ds⟩, l.drop ds.length)

/-- Greedy optional `s?` after the word minute. -/
def matchOptS : List Char → List Char
  | c :: r => if c.toLower = 's' then r else c :: r
  | [] => []

/-- Reminder pattern 1 anchored at a position:
`(\d+)\s*minutes?\s*(?:before|early|ahead)` with ordered alternation. -/
def r1At (l : List Char) : Option (String × List Char) :=
  match matchDigits1Plus l with
  | some (g1, r1) =>
    match litCI "minute".data (r1.dropWhile jsIsSpace) with
    | some r2 =>
      let r4 := (matchOptS r2).dropWhile jsIsSpace
      match litCI "before".data r4 with
      | some r5 => some (g1, r5)
      | none =>
        match litCI "early".data r4 with
        | some r5 => some (g1, r5)
        | none => (litCI "ahead".data r4).map fun r5 => (g1, r5)
    | none => none
  | none => none

/-- Tail `\s*(\d+)\s*minutes?` of reminder pattern 2. -/
def r2Tail (l : List Char) : Option (String × List Char) :=
  match matchDigits1Plus (l.dropWhile jsIsSpace) with
  | some (g1, r) =>
    (litCI "minute".data (r.dropWhile jsIsSpace)).map fun r2 => (g1, matchOptS r2)
  | none => none

/-- Reminder pattern 2 anchored at a position:
`remind\s*(?:me)?\s*(\d+)\s*minutes?`; the optional `me` backtracks when the
tail fails after consuming it. -/
def r2At (l : List Char) : Option (String × List Char) :=
  match litCI "remind".data l with
  | some r1 =>
    let r2 := r1.dropWhile jsIsSpace
    match litCI "me".data r2 with
    | some r3 =>
      match r2Tail r3 with
      | some res => some res
      | none => r2Tail r2
    | none => r2Tail r2
  | none => none

/-- Reminder-lead extraction of `parseAndAddSchedule` (Index.tsx lines 87-99):
two patterns in order, first match wins, default 10. -/
def extractReminder (transcript : String) : ℕ :=
  match scanFirst r1At transcript.data with
  | some (g1, _) => (jsParseInt g1).getD 0
  | none =>
    match scanFirst r2At transcript.data with
    | some (g1, _) => (jsParseInt g1).getD 0
    | none => 10

/-! ## Title extraction -/

/-- Length of the first alternative of the title-stripping pattern
(Index.tsx line 103) matching at this exact position: ordered alternation over
the stopword phrases, the `at`-time form, the bare time form, and the two
reminder-lead forms. -/
def titleAltAt (l : List Char) : Option ℕ :=
  let lit := fun (w : String) => (litCI w.data l).map fun r => l.length - r.length
  (lit "add schedule").orElse fun _ =>
  (lit "schedule").orElse fun _ =>
  (lit "remind me to").orElse fun _ =>
  (lit "remind me").orElse fun _ =>
  (lit "set reminder for").orElse fun _ =>
  (lit "set reminder").orElse fun _ =>
  ((p3At l).map fun m => l.length - m.2.2.2.length).orElse fun _ =>
  ((timeCoreAt l).map fun m => l.length - m.2.2.2.length).orElse fun _ =>
  ((r1At l).map fun m => l.length - m.2.length).orElse fun _ =>
  ((r2At l).map fun m => l.length - m.2.length)

/-- Fuel-driven worker for the global replace: one unit of fuel per scanned
position. Every alternative consumes at least one character, so fuel equal to
the input length always suffices and the out-of-fuel branch is unreachable. -/
def stripPhrasesF : ℕ → List Char → List Char
  | _, [] => []
  | 0, l => l
  | fuel + 1, c :: rest =>
    match titleAltAt (c :: rest) with
    | some n => stripPhrasesF fuel (rest.drop (n - 1))
    | none => c :: stripPhrasesF fuel rest

/-- Global replace of every occurrence of the title-stripping pattern by the
empty string: find the leftmost match, remove it, continue after it. -/
def stripPhrases (l : List Char) : List Char := stripPhrasesF l.length l

/-- Title extraction of `parseAndAddSchedule` (Index.tsx lines 101-111):
strip, trim, capitalize; a result that is empty or shorter than two
characters falls back to the fixed title. -/
def extractTitle (transcript : String) : String :=
  let t := jsCapitalize (jsTrim ⟨stripPhrases transcript.data⟩)
  if t.length < 2 then "New Reminder" else t

/-- Result of parsing one transcript: the data `parseAndAddSchedule` passes to
`addSchedule`, plus the intermediate hour/minute values. -/
structure ParsedSchedule where
  title : String
  time : String
  reminderMinutes : ℕ
  timeFound : Bool
  hours : ℕ
  minutes : ℕ
deriving Repr, DecidableEq

/-- The pure parsing portion of `parseAndAddSchedule` (Index.tsx lines
59-122): time extraction, reminder-lead extraction, title extraction, and the
zero-padded `HH:MM` time string. -/
def parseAndAddSchedule (transcript : String) : ParsedSchedule :=
  let te := extractTime transcript
  { title := extractTitle transcript
    time := pad2 te.hours ++ ":" ++ pad2 te.minutes
    reminderMinutes := extractReminder transcript
    timeFound := te.timeFound
    hours := te.hours
    minutes := te.minutes }

/-! ## ReminderClock -/

/-- A wall-clock instant within the current day, at the precision `new Date()`
offers the reminder check: hours, minutes, seconds and milliseconds. The
schedule date built by `checkSchedules` shares the day of `now`, so only the
time-of-day components matter. -/
structure Instant where
  hours : ℕ
  minutes : ℕ
  seconds : ℕ
  millis : ℕ
deriving Repr, DecidableEq

/-- Milliseconds since the start of the day. -/
def Instant.toMillis (t : Instant) : ℕ :=
  ((t.hours * 60 + t.minutes) * 60 + t.seconds) * 1000 + t.millis

/-- A schedule item (the `ScheduleItem` interface of Index.tsx): `reminded`
records the advance notice, `notified` the exact-time notice. -/
structure ScheduleItem where
  id : String
  title : String
  time : String
  description : Option String
  reminderMinutes : Option ℕ
  reminded : Bool
  notified : Bool
deriving Repr, DecidableEq

/-- JavaScript `String.prototype.split` with a single-character separator. -/
def splitOnChar (sep : Char) : List Char → List (List Char)
  | [] => [[]]
  | c :: rest =>
    if c = sep then [] :: splitOnChar sep rest
    else
      match splitOnChar sep rest with
      | [] => [[c]]
      | h :: t => (c :: h) :: t

/-- `schedule.time.split(':').map(Number)` destructured to two components. -/
def timeParts (s : String) : ℕ × ℕ :=
  match (splitOnChar ':' s.data).map fun l => jsNumber (String.mk l) with
  | h :: m :: _ => (h, m)
  | [h] => (h, 0)
  | [] => (0, 0)

/-- `schedule.reminderMinutes || 10`: an absent field, and also an explicit 0,
fall back to 10 (JavaScript falsiness). -/
def effectiveLead (it : ScheduleItem) : ℕ :=
  match it.reminderMinutes with
  | none => 10
  | some 0 => 10
  | some n => n

/-- `timeDiffMinutes` of `checkSchedules` (Index.tsx lines 297-302): today's
date at the item's time with seconds and milliseconds zeroed, minus `now`, in
milliseconds, floor-divided by 60000. -/
def deltaMinutes (now : Instant) (it : ScheduleItem) : ℤ :=
  let p := timeParts it.time
  Int.fdiv (((p.1 * 60 + p.2) * 60000 : ℕ) - (now.toMillis : ℤ)) 60000

/-- The notice fired for an item in one tick. -/
inductive NoticeKind where
  | advance (minutesLeft : ℤ)
  | exact
deriving Repr, DecidableEq

/-- The per-item body of `checkSchedules` (Index.tsx lines 296-331): the
advance branch fires when the flag is unset and `0 < delta <= lead`, setting
`reminded`; otherwise the exact branch fires when its flag is unset and
`-2 < delta <= 0`, setting `notified`; otherwise the item is returned as is. -/
def tickItem (now : Instant) (it : ScheduleItem) : ScheduleItem × Option NoticeKind :=
  let delta := deltaMinutes now it
  if it.reminded = false ∧ 0 < delta ∧ delta ≤ (effectiveLead it : ℤ) then
    ({ it with reminded := true }, some (NoticeKind.advance delta))
  else if it.notified = false ∧ delta ≤ 0 ∧ -2 < delta then
    ({ it with notified := true }, some NoticeKind.exact)
  else (it, none)

/-- One tick of `checkSchedules` over the whole collection: the updated
items, in order. -/
def checkSchedules (now : Instant) (items : List ScheduleItem) : List ScheduleItem :=
  items.map fun it => (tickItem now it).1

/-- The notices spoken during one tick, tagged by item id. -/
def firedNotices (now : Instant) (items : List ScheduleItem) : List (String × NoticeKind) :=
  items.filterMap fun it => ((tickItem now it).2).map fun k => (it.id, k)

/-- An item's state after a sequence of ticks. -/
def runTicks (nows : List Instant) (it : ScheduleItem) : ScheduleItem :=
  nows.foldl (fun s n => (tickItem n s).1) it

/-- An item's trajectory across a sequence of ticks: the initial state
followed by the state after each tick. -/
def itemTrace (nows : List Instant) (it : ScheduleItem) : List ScheduleItem :=
  nows.scanl (fun s n => (tickItem n s).1) it

/-! ## GeoMath and RouteAnnouncer -/

open Real in
/-- JavaScript `Math.atan2(y, x)`, as the argument of the complex number
`x + y i` (both agree on every quadrant and return 0 at the origin). -/
noncomputable def atan2 (y x : ℝ) : ℝ := Complex.arg ((x : ℂ) + (y : ℂ) * Complex.I)

open Real in
/-- `getDistanceBetweenPoints` of Navigation.tsx (lines 50-66): haversine
distance in meters between two `[longitude, latitude]` pairs in degrees,
with Earth radius 6371000 m. -/
noncomputable def getDistanceBetweenPoints (coord1 coord2 : ℝ × ℝ) : ℝ :=
  let R : ℝ := 6371000
  let lat1 := coord1.2 * π / 180
  let lat2 := coord2.2 * π / 180
  let deltaLat := (coord2.2 - coord1.2) * π / 180
  let deltaLon := (coord2.1 - coord1.1) * π / 180
  let a := sin (deltaLat / 2) * sin (deltaLat / 2) +
    cos lat1 * cos lat2 * sin (deltaLon / 2) * sin (deltaLon / 2)
  let c := 2 * atan2 (sqrt a) (sqrt (1 - a))
  R * c

/-- A route step (the `RouteStep` interface of Navigation.tsx). -/
structure RouteStep where
  instruction : String
  distance : ℝ
  location : ℝ × ℝ
  announced : Bool

/-- The navigation-session state read and written by
`checkAndAnnounceDirection`. -/
structure NavState where
  routeSteps : List RouteStep
  currentStepIndex : ℕ
  isNavigating : Bool
  voiceEnabled : Bool

/-- The distance wording of the deferred next-step preview
(Navigation.tsx lines 100-102). -/
inductive DistancePhrase where
  | inMeters (n : ℤ)
  | shortly
deriving Repr, DecidableEq

/-- Utterances produced by one position update, tagged by the index of the
step they concern. -/
inductive NavEvent where
  | announce (idx : ℕ) (instruction : String)
  | upcoming (idx : ℕ) (phrase : DistancePhrase) (instruction : String)
  | arrival
  | preAnnounce (idx : ℕ) (meters : ℤ) (instruction : String)
deriving Repr, DecidableEq

/-- Map with the element's index, written with an explicit index counter so
that it reduces structurally. -/
def mapWithIdx (f : ℕ → RouteStep → RouteStep) : ℕ → List RouteStep → List RouteStep
  | _, [] => []
  | k, st :: rest => f k st :: mapWithIdx f (k + 1) rest

/-- `prev.map((step, idx) => idx === i ? { ...step, announced: true } : step)`. -/
def markAnnounced (i : ℕ) (l : List RouteStep) : List RouteStep :=
  mapWithIdx (fun j st => if j = i then { st with announced := true } else st) 0 l

/-- `checkAndAnnounceDirection` of Navigation.tsx (lines 69-124) as one state
transition per position update. The two fixed-delay follow-ups (the
next-step preview spoken 3 s after an announcement, and the arrival message
with `setIsNavigating(false)` 2 s after the last one) run unconditionally in
the source's single-threaded session, so their effects are folded into the
transition's resulting state and event list. -/
noncomputable def checkAndAnnounceDirection (pos : ℝ × ℝ) (s : NavState) :
    NavState × List NavEvent :=
  if s.isNavigating = false ∨ s.routeSteps.length = 0 ∨ s.voiceEnabled = false then (s, [])
  else
    match s.routeSteps[s.currentStepIndex]? with
    | none => (s, [])
    | some step =>
      if step.announced then (s, [])
      else
        let d := getDistanceBetweenPoints pos step.location
        if d < 30 then
          let steps' := markAnnounced s.currentStepIndex s.routeSteps
          if s.currentStepIndex < s.routeSteps.length - 1 then
            let deferred : List NavEvent :=
              match s.routeSteps[s.currentStepIndex + 1]? with
              | some next =>
                [NavEvent.upcoming (s.currentStepIndex + 1)
                  (if next.distance > 100 then DistancePhrase.inMeters (round next.distance)
                   else DistancePhrase.shortly)
                  next.instruction]
              | none => []
            ({ s with routeSteps := steps', currentStepIndex := s.currentStepIndex + 1 },
              NavEvent.announce s.currentStepIndex step.instruction :: deferred)
          else
            ({ s with routeSteps := steps', isNavigating := false },
              [NavEvent.announce s.currentStepIndex step.instruction, NavEvent.arrival])
        else if d < 50 ∧ step.announced = false then
          (s, [NavEvent.preAnnounce s.currentStepIndex (round d) step.instruction])
        else (s, [])

/-- Validity of an `HH:MM` 24-hour time-of-day string, following the words of
claim C10 (two digit fields, hour below 24, minute below 60); stated only to
express that the parser's output can violate it. -/
def isWellFormedTimeOfDay (s : String) : Bool :=
  match splitOnChar ':' s.data with
  | [h, m] =>
    h.length = 2 && m.length = 2 && h.all Char.isDigit && m.all Char.isDigit &&
    digitsToNat h < 24 && digitsToNat m < 60
  | _ => false

/-! ## Helper lemmas -/

theorem tickItem_eq (now : Instant) (it : ScheduleItem) :
    tickItem now it =
      if it.reminded = false ∧ 0 < deltaMinutes now it ∧
          deltaMinutes now it ≤ (effectiveLead it : ℤ) then
        ({ it with reminded := true }, some (NoticeKind.advance (deltaMinutes now it)))
      else if it.notified = false ∧ deltaMinutes now it ≤ 0 ∧ -2 < deltaMinutes now it then
        ({ it with notified := true }, some NoticeKind.exact)
      else (it, none) := rfl

theorem tickItem_reminded_le (now : Instant) (it : ScheduleItem) :
    it.reminded ≤ ((tickItem now it).1).reminded := by
  rw [tickItem_eq]
  split_ifs with h1 h2
  · simp_all
  · exact le_refl _
  · exact le_refl _

theorem tickItem_notified_le (now : Instant) (it : ScheduleItem) :
    it.notified ≤ ((tickItem now it).1).notified := by
  rw [tickItem_eq]
  split_ifs with h1 h2
  · exact le_refl _
  · simp_all
  · exact le_refl _

theorem itemTrace_head (nows : List Instant) (it : ScheduleItem) :
    ((itemTrace nows it).map f).head? = some (f it) := by
  cases nows <;> rfl

theorem chain_trace (f : ScheduleItem → Bool)
    (hmono : ∀ n s, f s ≤ f ((tickItem n s).1)) :
    ∀ (nows : List Instant) (it : ScheduleItem),
      List.Chain' (· ≤ ·) ((itemTrace nows it).map f) := by
  intro nows
  induction nows with
  | nil =>
    intro it
    simp [itemTrace]
  | cons n ns ih =>
    intro it
    rw [show itemTrace (n :: ns) it = it :: itemTrace ns ((tickItem n it).1) from rfl,
      List.map_cons, List.chain'_cons']
    refine ⟨?_, ih _⟩
    intro b hb
    rw [itemTrace_head] at hb
    simp only [Option.mem_def, Option.some_inj] at hb
    rw [← hb]
    exact hmono n it

theorem getDistance_self (p : ℝ × ℝ) : getDistanceBetweenPoints p p = 0 := by
  simp [getDistanceBetweenPoints, atan2, sub_self, Real.sqrt_zero, Complex.arg_one]

theorem getDistance_forty :
    getDistanceBetweenPoints (0, 0) (7200 / (6371000 * Real.pi), 0) = 40 := by
  have hpi : Real.pi ≠ 0 := Real.pi_ne_zero
  have hpi3 : 3 < Real.pi := Real.pi_gt_three
  set t : ℝ := 20 / 6371000 with ht
  have ht0 : 0 ≤ t := by norm_num [ht]
  have ht1 : t ≤ 1 := by rw [ht]; norm_num
  have htpi : t ≤ Real.pi := by linarith
  have hsin : 0 ≤ Real.sin t := Real.sin_nonneg_of_nonneg_of_le_pi ht0 htpi
  have hcos : 0 ≤ Real.cos t :=
    Real.cos_nonneg_of_mem_Icc (Set.mem_Icc.mpr ⟨by linarith, by linarith⟩)
  have hdlon : (7200 / (6371000 * Real.pi) - 0) * Real.pi / 180 / 2 = t := by
    rw [ht]
    field_simp
    ring
  have hone : (1 : ℝ) - Real.sin t * Real.sin t = Real.cos t * Real.cos t := by
    have h := Real.sin_sq_add_cos_sq t
    ring_nf
    ring_nf at h
    linarith
  have harg : Complex.arg ((Real.cos t : ℂ) + (Real.sin t : ℂ) * Complex.I) = t := by
    rw [Complex.ofReal_cos, Complex.ofReal_sin]
    exact Complex.arg_cos_add_sin_mul_I (Set.mem_Ioc.mpr ⟨by linarith [Real.pi_pos], htpi⟩)
  simp only [getDistanceBetweenPoints, atan2]
  rw [sub_self, zero_mul, zero_div, zero_div, Real.sin_zero, hdlon]
  simp only [mul_zero, zero_mul, Real.cos_zero, one_mul, zero_add]
  rw [Real.sqrt_mul_self hsin, hone, Real.sqrt_mul_self hcos, harg]
  rw [ht]
  norm_num

theorem mapWithIdx_getElem? (f : ℕ → RouteStep → RouteStep) :
    ∀ (l : List RouteStep) (k j : ℕ), (mapWithIdx f k l)[j]? = (l[j]?).map (f (k + j)) := by
  intro l
  induction l with
  | nil =>
    intro k j
    simp [mapWithIdx]
  | cons st rest ih =>
    intro k j
    cases j with
    | zero => simp [mapWithIdx]
    | succ j' =>
      simp only [mapWithIdx, List.getElem?_cons_succ]
      rw [ih (k + 1) j']
      have hk : k + 1 + j' = k + (j' + 1) := by omega
      rw [hk]

theorem markAnnounced_getElem? (i j : ℕ) (l : List RouteStep) :
    (markAnnounced i l)[j]? =
      (l[j]?).map fun st => if j = i then { st with announced := true } else st := by
  rw [markAnnounced, mapWithIdx_getElem?]
  simp

/-- Every `announce` event emitted by one position update targets the current
step, and only when that step is not yet announced. -/
theorem announce_only_current_unannounced :
    ∀ (pos : ℝ × ℝ) (s : NavState) (i : ℕ) (instr : String),
      NavEvent.announce i instr ∈ (checkAndAnnounceDirection pos s).2 →
      ∃ st, s.routeSteps[i]? = some st ∧ st.announced = false := by
  intro pos s i instr hmem
  by_cases hguard : s.isNavigating = false ∨ s.routeSteps.length = 0 ∨ s.voiceEnabled = false
  · rw [checkAndAnnounceDirection, if_pos hguard] at hmem
    simp at hmem
  · rw [checkAndAnnounceDirection, if_neg hguard] at hmem
    cases hstep : s.routeSteps[s.currentStepIndex]? with
    | none =>
      rw [hstep] at hmem
      simp at hmem
    | some step =>
      rw [hstep] at hmem
      dsimp only [] at hmem
      by_cases hann : step.announced = true
      · simp [hann] at hmem
      · rw [if_neg hann] at hmem
        by_cases hd : getDistanceBetweenPoints pos step.location < 30
        · rw [if_pos hd] at hmem
          have hkey : i = s.currentStepIndex := by
            by_cases hlast : s.currentStepIndex < s.routeSteps.length - 1
            · rw [if_pos hlast] at hmem
              cases hnext : s.routeSteps[s.currentStepIndex + 1]? with
              | none =>
                rw [hnext] at hmem
                simp at hmem
                exact hmem.1
              | some next =>
                rw [hnext] at hmem
                simp at hmem
                exact hmem.1
            · rw [if_neg hlast] at hmem
              simp at hmem
              exact hmem.1
          exact ⟨step, by rw [hkey]; exact hstep, by simpa using hann⟩
        · rw [if_neg hd] at hmem
          by_cases hd50 : getDistanceBetweenPoints pos step.location < 50 ∧ step.announced = false
          · rw [if_pos hd50] at hmem
            simp at hmem
          · rw [if_neg hd50] at hmem
            simp at hmem

/-! ## Claim theorems: transcript parser -/

/-- Claim C1: the claim expects am/pm normalization on every time expression
with an am/pm suffix, with the bare-hour transcript 12 am parsing to 00:00.
The code disagrees on bare-hour expressions: the bare-hour pattern captures
its suffix in group 2 while the interpretation reads the period from group 3,
so 12 am yields 12:00 (no normalization ever fires for that pattern family);
the H:MM form 8:30 pm is normalized to 20:30 as the claim states. This
theorem evaluates the parser at the failing and the agreeing inputs. -/
theorem claim_c1_bare_hour_period_dropped :
    (parseAndAddSchedule "12 am").time = "12:00" ∧
    (parseAndAddSchedule "12 am").time ≠ "00:00" ∧
    (parseAndAddSchedule "remind me to sleep at 12 am").time = "12:00" ∧
    (parseAndAddSchedule "12 pm").time = "12:00" ∧
    (parseAndAddSchedule "8:30 pm").time = "20:30" ∧
    (findTime2 "12 am".data).map TimeMatch.g3 = some none := by
  decide

/-- Claim C8: title extraction strips the matched phrases, trims, capitalizes
the first character, and falls back to the fixed title exactly when the result
is shorter than two characters; the claimed example transcript yields title
Take medicine and time 08:00. -/
theorem claim_c8_title_extraction :
    (∀ t : String,
      (jsCapitalize (jsTrim (String.mk (stripPhrases t.data)))).length < 2 →
        extractTitle t = "New Reminder") ∧
    (∀ t : String,
      2 ≤ (jsCapitalize (jsTrim (String.mk (stripPhrases t.data)))).length →
        extractTitle t = jsCapitalize (jsTrim (String.mk (stripPhrases t.data)))) ∧
    (parseAndAddSchedule "remind me to take medicine at 8 am").title = "Take medicine" ∧
    (parseAndAddSchedule "remind me to take medicine at 8 am").time = "08:00" := by
  refine ⟨?_, ?_, by decide, by decide⟩
  · intro t h
    simp only [extractTitle, if_pos h]
  · intro t h
    simp only [extractTitle]
    rw [if_neg (by omega)]

/-- Witness for claim C8 at concrete transcripts: the fallback branch on a
transcript that strips to the empty string, and the regular branch on the
claimed example. -/
theorem claim_c8_witness :
    extractTitle "add schedule" = "New Reminder" ∧
    extractTitle "remind me to take medicine at 8 am" =
      jsCapitalize (jsTrim (String.mk (stripPhrases
        "remind me to take medicine at 8 am".data))) :=
  ⟨claim_c8_title_extraction.1 "add schedule" (by decide),
   claim_c8_title_extraction.2.1 "remind me to take medicine at 8 am" (by decide)⟩

/-- Claim C10: the parser performs no range validation on matched digits: the
transcript remind me at 19:99 is matched with hours 19 and minutes 99 and the
returned time string 19:99 is not a well-formed 24-hour HH:MM time of day. -/
theorem claim_c10_no_range_validation :
    (parseAndAddSchedule "remind me at 19:99").hours = 19 ∧
    (parseAndAddSchedule "remind me at 19:99").minutes = 99 ∧
    (parseAndAddSchedule "remind me at 19:99").time = "19:99" ∧
    isWellFormedTimeOfDay "19:99" = false ∧
    ¬ digitsToNat "99".data < 60 := by
  decide

/-! ## Claim theorems: reminder clock -/

/-- Claim C2: a tick fires an advance notice for an item and sets its
`reminded` flag exactly when the flag is unset and
`0 < deltaMinutes <= reminderLeadMinutes`; with lead 10 and the item due in
exactly 10 minutes the tick fires one advance notice (so no exact notice,
the per-item notice being unique). -/
theorem claim_c2_advance_notice :
    ∀ (now : Instant) (it : ScheduleItem),
      ((∃ d, (tickItem now it).2 = some (NoticeKind.advance d)) ↔
        (it.reminded = false ∧ 0 < deltaMinutes now it ∧
          deltaMinutes now it ≤ (effectiveLead it : ℤ))) ∧
      ((∃ d, (tickItem now it).2 = some (NoticeKind.advance d)) →
        (tickItem now it).1 = { it with reminded := true }) ∧
      (it.reminded = false → deltaMinutes now it = 10 → effectiveLead it = 10 →
        (tickItem now it).2 = some (NoticeKind.advance 10) ∧
        (tickItem now it).2 ≠ some NoticeKind.exact ∧
        (tickItem now it).1.reminded = true) := by
  intro now it
  rw [tickItem_eq]
  split_ifs with h1 h2
  · simp_all
  · constructor
    · simp only [Option.some_inj]
      constructor
      · rintro ⟨d, hd⟩
        cases hd
      · intro h
        exact absurd h h1
    · constructor
      · rintro ⟨d, hd⟩
        simp at hd
      · intro ha hb hc
        omega
  · constructor
    · constructor
      · rintro ⟨d, hd⟩
        cases hd
      · intro h
        exact absurd h h1
    · constructor
      · rintro ⟨d, hd⟩
        cases hd
      · intro ha hb hc
        exact absurd ⟨ha, by omega, by omega⟩ h1

/-- Witness for claim C2: an item due at 08:10 with lead 10, ticked at
exactly 08:00, fires the advance notice for 10 minutes and no exact notice. -/
theorem claim_c2_witness :
    (tickItem ⟨8, 0, 0, 0⟩ ⟨"1", "Med", "08:10", none, some 10, false, false⟩).2 =
        some (NoticeKind.advance 10) ∧
    (tickItem ⟨8, 0, 0, 0⟩ ⟨"1", "Med", "08:10", none, some 10, false, false⟩).2 ≠
        some NoticeKind.exact ∧
    (tickItem ⟨8, 0, 0, 0⟩ ⟨"1", "Med", "08:10", none, some 10, false, false⟩).1.reminded =
        true :=
  (claim_c2_advance_notice ⟨8, 0, 0, 0⟩
    ⟨"1", "Med", "08:10", none, some 10, false, false⟩).2.2 rfl (by decide) (by decide)

/-- Claim C3: for an item whose exact-notice flag is unset, a tick fires the
exact notice exactly when `-2 < deltaMinutes <= 0` (so the boundary
`deltaMinutes = 0`, reached when now equals the item's time, is included and
`deltaMinutes <= -2` is excluded), and firing sets the `notified` flag. -/
theorem claim_c3_exact_notice :
    ∀ (now : Instant) (it : ScheduleItem), it.notified = false →
      (((tickItem now it).2 = some NoticeKind.exact) ↔
        (-2 < deltaMinutes now it ∧ deltaMinutes now it ≤ 0)) ∧
      (deltaMinutes now it = 0 → (tickItem now it).2 = some NoticeKind.exact) ∧
      (deltaMinutes now it ≤ -2 → (tickItem now it).2 ≠ some NoticeKind.exact) ∧
      (((tickItem now it).2 = some NoticeKind.exact) →
        (tickItem now it).1 = { it with notified := true }) := by
  intro now it hnot
  have hiff : ((tickItem now it).2 = some NoticeKind.exact) ↔
      (-2 < deltaMinutes now it ∧ deltaMinutes now it ≤ 0) := by
    rw [tickItem_eq]
    split_ifs with h1 h2
    · constructor
      · intro h
        simp at h
      · rintro ⟨-, hle⟩
        obtain ⟨-, hpos, -⟩ := h1
        omega
    · exact ⟨fun _ => ⟨h2.2.2, h2.2.1⟩, fun _ => rfl⟩
    · constructor
      · intro h
        simp at h
      · intro h
        exact absurd ⟨hnot, h.2, h.1⟩ h2
  refine ⟨hiff, ?_, ?_, ?_⟩
  · intro h0
    exact hiff.2 ⟨by omega, by omega⟩
  · intro hle hc
    have := hiff.1 hc
    omega
  · intro hc
    rw [tickItem_eq] at hc ⊢
    split_ifs at hc ⊢ <;> simp_all

/-- Witness for claim C3: an item due at 08:10 ticked exactly at 08:10
(deltaMinutes 0) fires the exact notice and sets the flag. -/
theorem claim_c3_witness :
    ((tickItem ⟨8, 10, 0, 0⟩ ⟨"1", "Med", "08:10", none, some 10, false, false⟩).2 =
        some NoticeKind.exact ↔
      (-2 < deltaMinutes ⟨8, 10, 0, 0⟩ ⟨"1", "Med", "08:10", none, some 10, false, false⟩ ∧
        deltaMinutes ⟨8, 10, 0, 0⟩ ⟨"1", "Med", "08:10", none, some 10, false, false⟩ ≤ 0)) ∧
    (tickItem ⟨8, 10, 0, 0⟩ ⟨"1", "Med", "08:10", none, some 10, false, false⟩).2 =
        some NoticeKind.exact :=
  ⟨(claim_c3_exact_notice ⟨8, 10, 0, 0⟩
      ⟨"1", "Med", "08:10", none, some 10, false, false⟩ rfl).1,
   (claim_c3_exact_notice ⟨8, 10, 0, 0⟩
      ⟨"1", "Med", "08:10", none, some 10, false, false⟩ rfl).2.1 (by decide)⟩

/-- Claim C4: across any sequence of ticks, an item's `reminded` and
`notified` flags are monotone along the trajectory (in the Boolean order, so
each flips from false to true at most once), and a single tick never resets
either flag. -/
theorem claim_c4_flags_monotone :
    ∀ (nows : List Instant) (it : ScheduleItem) (now : Instant),
      it.reminded ≤ ((tickItem now it).1).reminded ∧
      it.notified ≤ ((tickItem now it).1).notified ∧
      List.Chain' (· ≤ ·) ((itemTrace nows it).map ScheduleItem.reminded) ∧
      List.Chain' (· ≤ ·) ((itemTrace nows it).map ScheduleItem.notified) := by
  intro nows it now
  exact ⟨tickItem_reminded_le now it, tickItem_notified_le now it,
    chain_trace ScheduleItem.reminded tickItem_reminded_le nows it,
    chain_trace ScheduleItem.notified tickItem_notified_le nows it⟩

/-- Claim C9: items for which no notice fires are returned unchanged by a
tick, the tick preserves the length of the collection, and positions whose
item fired no notice hold the identical item in the output. -/
theorem claim_c9_frame :
    ∀ (now : Instant) (items : List ScheduleItem),
      (∀ it, (tickItem now it).2 = none → (tickItem now it).1 = it) ∧
      (checkSchedules now items).length = items.length ∧
      (∀ (i : ℕ) (it : ScheduleItem), items[i]? = some it → (tickItem now it).2 = none →
        (checkSchedules now items)[i]? = some it) := by
  intro now items
  have hnone : ∀ it, (tickItem now it).2 = none → (tickItem now it).1 = it := by
    intro it h
    rw [tickItem_eq] at h ⊢
    split_ifs at h ⊢
    all_goals simp_all
  refine ⟨hnone, by simp [checkSchedules], ?_⟩
  intro i it hi hev
  simp [checkSchedules, hi, hnone it hev]

/-- Witness for claim C9: a tick at 08:00 on a singleton collection whose item
is due at 09:30 (delta 90, outside both windows) fires nothing and returns the
collection pointwise unchanged. -/
theorem claim_c9_witness :
    (checkSchedules ⟨8, 0, 0, 0⟩
        [⟨"1", "Med", "09:30", none, some 10, false, false⟩]).length = 1 ∧
    (checkSchedules ⟨8, 0, 0, 0⟩
        [⟨"1", "Med", "09:30", none, some 10, false, false⟩])[0]? =
      some ⟨"1", "Med", "09:30", none, some 10, false, false⟩ :=
  ⟨(claim_c9_frame ⟨8, 0, 0, 0⟩ [⟨"1", "Med", "09:30", none, some 10, false, false⟩]).2.1,
   (claim_c9_frame ⟨8, 0, 0, 0⟩ [⟨"1", "Med", "09:30", none, some 10, false, false⟩]).2.2 0
     ⟨"1", "Med", "09:30", none, some 10, false, false⟩ rfl (by decide)⟩

/-! ## Claim theorems: route announcer -/

/-- Claim C5: when navigation is active, voice is enabled and the distance to
the current (not yet announced) step's trigger location is below 30 meters,
the update announces that step's instruction, marks that step announced in
the step list, advances the cursor by 1 if a later step exists, and otherwise
marks the session not-navigating. -/
theorem claim_c5_announce_and_advance :
    ∀ (pos : ℝ × ℝ) (s : NavState) (step : RouteStep),
      s.isNavigating = true → s.voiceEnabled = true →
      s.routeSteps[s.currentStepIndex]? = some step →
      step.announced = false →
      getDistanceBetweenPoints pos step.location < 30 →
      (NavEvent.announce s.currentStepIndex step.instruction ∈
          (checkAndAnnounceDirection pos s).2) ∧
      ((checkAndAnnounceDirection pos s).1).routeSteps[s.currentStepIndex]? =
          some { step with announced := true } ∧
      (s.currentStepIndex < s.routeSteps.length - 1 →
        ((checkAndAnnounceDirection pos s).1).currentStepIndex = s.currentStepIndex + 1) ∧
      (¬ s.currentStepIndex < s.routeSteps.length - 1 →
        ((checkAndAnnounceDirection pos s).1).isNavigating = false) := by
  intro pos s step hnav hvoice hstep hann hd
  have hguard : ¬ (s.isNavigating = false ∨ s.routeSteps.length = 0 ∨ s.voiceEnabled = false) := by
    rintro (h | h | h)
    · rw [hnav] at h
      cases h
    · rw [List.length_eq_zero] at h
      rw [h] at hstep
      simp at hstep
    · rw [hvoice] at h
      cases h
  have hmark : (markAnnounced s.currentStepIndex s.routeSteps)[s.currentStepIndex]? =
      some { step with announced := true } := by
    rw [markAnnounced_getElem?, hstep]
    simp
  rw [checkAndAnnounceDirection, if_neg hguard, hstep]
  dsimp only []
  rw [if_neg (by simp [hann]), if_pos hd]
  by_cases hlast : s.currentStepIndex < s.routeSteps.length - 1
  · rw [if_pos hlast]
    refine ⟨List.mem_cons_self _ _, hmark, fun _ => rfl, fun h => absurd hlast h⟩
  · rw [if_neg hlast]
    exact ⟨List.mem_cons_self _ _, hmark, fun h => absurd h hlast, fun _ => rfl⟩

/-- Witness for claim C5: a two-step route with the cursor on step 0 and a
position exactly at its trigger location announces step 0, marks it
announced, and advances the cursor to 1. -/
theorem claim_c5_witness :
    (NavEvent.announce 0 "turn left" ∈
        (checkAndAnnounceDirection (0, 0)
          ⟨[⟨"turn left", 5, (0, 0), false⟩, ⟨"turn right", 200, (1, 1), false⟩],
            0, true, true⟩).2) ∧
    ((checkAndAnnounceDirection (0, 0)
          ⟨[⟨"turn left", 5, (0, 0), false⟩, ⟨"turn right", 200, (1, 1), false⟩],
            0, true, true⟩).1).routeSteps[0]? = some ⟨"turn left", 5, (0, 0), true⟩ ∧
    ((0 : ℕ) < ([⟨"turn left", 5, (0, 0), false⟩,
          (⟨"turn right", 200, (1, 1), false⟩ : RouteStep)].length - 1) →
      ((checkAndAnnounceDirection (0, 0)
          ⟨[⟨"turn left", 5, (0, 0), false⟩, ⟨"turn right", 200, (1, 1), false⟩],
            0, true, true⟩).1).currentStepIndex = 1) ∧
    (¬ (0 : ℕ) < ([⟨"turn left", 5, (0, 0), false⟩,
          (⟨"turn right", 200, (1, 1), false⟩ : RouteStep)].length - 1) →
      ((checkAndAnnounceDirection (0, 0)
          ⟨[⟨"turn left", 5, (0, 0), false⟩, ⟨"turn right", 200, (1, 1), false⟩],
            0, true, true⟩).1).isNavigating = false) :=
  claim_c5_announce_and_advance (0, 0)
    ⟨[⟨"turn left", 5, (0, 0), false⟩, ⟨"turn right", 200, (1, 1), false⟩], 0, true, true⟩
    ⟨"turn left", 5, (0, 0), false⟩ rfl rfl rfl rfl
    (by rw [show (⟨"turn left", 5, (0, 0), false⟩ : RouteStep).location = (0, 0) from rfl,
      getDistance_self]; norm_num)

/-- Claim C6: once a position update has left a step marked announced,
running the announcer again with the same position emits no further announce
event for that step. -/
theorem claim_c6_no_reannouncement :
    ∀ (pos : ℝ × ℝ) (s : NavState) (i : ℕ) (st : RouteStep) (instr : String),
      ((checkAndAnnounceDirection pos s).1).routeSteps[i]? = some st →
      st.announced = true →
      NavEvent.announce i instr ∉
        (checkAndAnnounceDirection pos ((checkAndAnnounceDirection pos s).1)).2 := by
  intro pos s i st instr h1 h2 hmem
  obtain ⟨st', hst', hfalse⟩ :=
    announce_only_current_unannounced pos ((checkAndAnnounceDirection pos s).1) i instr hmem
  rw [h1] at hst'
  obtain rfl : st = st' := by injection hst'
  rw [h2] at hfalse
  cases hfalse

/-- Witness for claim C6: after the update of the C5 scenario has announced
step 0 (both steps sharing one trigger location), a second update at the same
position emits no announce event for step 0. -/
theorem claim_c6_witness :
    NavEvent.announce 0 "turn left" ∉
      (checkAndAnnounceDirection (0, 0)
        ((checkAndAnnounceDirection (0, 0)
          ⟨[⟨"turn left", 5, (0, 0), false⟩, ⟨"turn right", 200, (0, 0), false⟩],
            0, true, true⟩).1)).2 := by
  have h1 : ((checkAndAnnounceDirection (0, 0)
      ⟨[⟨"turn left", 5, (0, 0), false⟩, ⟨"turn right", 200, (0, 0), false⟩],
        0, true, true⟩).1).routeSteps[0]? = some ⟨"turn left", 5, (0, 0), true⟩ := by
    norm_num [checkAndAnnounceDirection, getDistance_self, markAnnounced, mapWithIdx]
  exact claim_c6_no_reannouncement (0, 0)
    ⟨[⟨"turn left", 5, (0, 0), false⟩, ⟨"turn right", 200, (0, 0), false⟩], 0, true, true⟩
    0 ⟨"turn left", 5, (0, 0), true⟩ "turn left" h1 rfl

/-- Claim C7: when the distance to the current (not yet announced) step is at
least 30 and below 50 meters, the update speaks one pre-announcement carrying
the rounded distance and the instruction and changes no state, so it may
repeat on later updates in that band. -/
theorem claim_c7_preannounce_no_state_change :
    ∀ (pos : ℝ × ℝ) (s : NavState) (step : RouteStep),
      s.isNavigating = true → s.voiceEnabled = true →
      s.routeSteps[s.currentStepIndex]? = some step →
      step.announced = false →
      30 ≤ getDistanceBetweenPoints pos step.location →
      getDistanceBetweenPoints pos step.location < 50 →
      (checkAndAnnounceDirection pos s).1 = s ∧
      (checkAndAnnounceDirection pos s).2 =
        [NavEvent.preAnnounce s.currentStepIndex
          (round (getDistanceBetweenPoints pos step.location)) step.instruction] := by
  intro pos s step hnav hvoice hstep hann h30 h50
  have hguard : ¬ (s.isNavigating = false ∨ s.routeSteps.length = 0 ∨ s.voiceEnabled = false) := by
    rintro (h | h | h)
    · rw [hnav] at h
      cases h
    · rw [List.length_eq_zero] at h
      rw [h] at hstep
      simp at hstep
    · rw [hvoice] at h
      cases h
  rw [checkAndAnnounceDirection, if_neg hguard, hstep]
  dsimp only []
  rw [if_neg (by simp [hann]), if_neg (not_lt.mpr h30), if_pos ⟨h50, hann⟩]
  exact ⟨rfl, rfl⟩

/-- Witness for claim C7: a single-step route whose trigger location lies
exactly 40 meters east of the position (along the equator) pre-announces the
step with the rounded distance and leaves the state unchanged. -/
theorem claim_c7_witness :
    (checkAndAnnounceDirection (0, 0)
        ⟨[⟨"turn left", 0, (7200 / (6371000 * Real.pi), 0), false⟩], 0, true, true⟩).1 =
      ⟨[⟨"turn left", 0, (7200 / (6371000 * Real.pi), 0), false⟩], 0, true, true⟩ ∧
    (checkAndAnnounceDirection (0, 0)
        ⟨[⟨"turn left", 0, (7200 / (6371000 * Real.pi), 0), false⟩], 0, true, true⟩).2 =
      [NavEvent.preAnnounce 0
        (round (getDistanceBetweenPoints (0, 0)
          (⟨"turn left", 0, (7200 / (6371000 * Real.pi), 0), false⟩ : RouteStep).location))
        "turn left"] :=
  claim_c7_preannounce_no_state_change (0, 0)
    ⟨[⟨"turn left", 0, (7200 / (6371000 * Real.pi), 0), false⟩], 0, true, true⟩
    ⟨"turn left", 0, (7200 / (6371000 * Real.pi), 0), false⟩ rfl rfl rfl rfl
    (by rw [show (⟨"turn left", 0, (7200 / (6371000 * Real.pi), 0), false⟩ :
      RouteStep).location = (7200 / (6371000 * Real.pi), 0) from rfl, getDistance_forty]
        norm_num)
    (by rw [show (⟨"turn left", 0, (7200 / (6371000 * Real.pi), 0), false⟩ :
      RouteStep).location = (7200 / (6371000 * Real.pi), 0) from rfl, getDistance_forty]
        norm_num)

end SeeingHelper
